import Mathlib

/-!
Verification of the procman (goreman fork) process supervisor's
Procfile-loading, configuration, and startup entry points, via a shallow
embedding of `goreman.go` into Lean.

Conventions of the embedding:
* Go strings are modelled as `List Char` (`Str`); Go byte indexing of the
  ASCII-only tokens concerned coincides with `Char` indexing.
* Go `uint` is 64-bit; its arithmetic is `Nat` arithmetic modulo `2 ^ 64`.
* `runtime.GOOS` is fixed to a non-windows value, so the windows-only
  `$VAR` → `%VAR%` substitution branch of `readProcfile` is inactive.
* A Go runtime panic (index out of range) is a distinguished outcome
  (`ParseOutcome.panic`), not an error return.
-/

namespace Procman

abbrev Str := List Char

/-- Modulus of Go's 64-bit `uint`. -/
def U64 : Nat := 2 ^ 64

/-- Go `strings.Split(s, sep)` for a one-character separator. -/
def splitOnChar (sep : Char) : Str → List Str
  | [] => [[]]
  | c :: rest =>
    let r := splitOnChar sep rest
    if c = sep then [] :: r
    else
      match r with
      | [] => [[c]]
      | h :: t => (c :: h) :: t

/-- Go `strings.SplitN(line, sep, 2)` for a one-character separator:
`none` when the separator does not occur (one token), otherwise the text
before the first separator and the untouched remainder after it. -/
def splitN2 (sep : Char) : Str → Option (Str × Str)
  | [] => none
  | c :: rest =>
    if c = sep then some ([], rest)
    else
      match splitN2 sep rest with
      | none => none
      | some (a, b) => some (c :: a, b)

/-- Go `unicode.IsSpace` on the Latin-1 range. -/
def goIsSpace (c : Char) : Bool :=
  c = ' ' || c = '\t' || c = '\n' || c = '\x0b' || c = '\x0c' || c = '\r'
    || c = '\x85' || c = '\xa0'

/-- Go `strings.TrimSpace`. -/
def trimSpace (l : Str) : Str :=
  ((l.dropWhile goIsSpace).reverse.dropWhile goIsSpace).reverse

/-- The fields of `ProcInfo` that the loader populates (`cmd`, `mu`,
`cond`, `waitErr`, `stoppedBySupervisor` are runtime-only and stay at
their zero values during `readProcfile`). -/
structure ProcInfo where
  name : Str
  cmdline : Str
  port : Nat
  setPort : Bool
  colorIndex : Nat
  logTime : Bool
deriving DecidableEq, Repr

/-- The `Config` struct. `Args` are command-line words; Go `uint` fields
are `Nat` (mod `U64`). -/
structure Config where
  Args : List Str
  Procfile : String
  StartRpcServer : Bool
  RpcPort : Nat
  BaseDir : String
  BasePort : Nat
  ExitOnError : Bool
  ExitOnStop : Bool
  SetPorts : Bool
  LogTime : Bool
deriving DecidableEq, Repr

/-- The `default:"..."` struct tags on `Config`, as read off by
`GetTag` (`tags.go`), field name → declared default. -/
def configTagDefault : String → String
  | "Procfile" => "Procfile"
  | "StartRpcServer" => "true"
  | "RpcPort" => "8555"
  | "BaseDir" => ""
  | "BasePort" => "5000"
  | "ExitOnError" => "false"
  | "ExitOnStop" => "true"
  | "SetPorts" => "true"
  | "LogTime" => "true"
  | _ => ""

/-- Outcome of running a piece of Go code that may return an error or hit
a runtime panic. -/
inductive ParseOutcome (α : Type) where
  | panic : ParseOutcome α
  | err : String → ParseOutcome α
  | ok : α → ParseOutcome α
deriving DecidableEq, Repr

/-- Mutable state of `readProcfile`'s loop: the `procs` slice, the `index`
counter, and `cfg.BasePort` (which the loop increments in place). -/
structure LoopState where
  procs : List ProcInfo
  index : Nat
  basePort : Nat
deriving DecidableEq, Repr

/-- One pass of `readProcfile`'s `for` loop over the split lines.
`nc` is `len(colors)` (the palette lives in a source file not included
here; only its length is used). `none` models the Go panic of
`tokens[0][0]` when a line begins with `':'`. -/
def procfileLoop (cfg : Config) (nc : Nat) : List Str → LoopState → Option LoopState
  | [], st => some st
  | line :: rest, st =>
    match splitN2 ':' line with
    | none => procfileLoop cfg nc rest st
    | some (t0, t1) =>
      match t0 with
      | [] => none
      | c :: _ =>
        if c = '#' then procfileLoop cfg nc rest st
        else
          let proc : ProcInfo :=
            { name := trimSpace t0
              cmdline := trimSpace t1
              colorIndex := st.index
              logTime := cfg.LogTime
              setPort := cfg.SetPorts
              port := if cfg.SetPorts then st.basePort else 0 }
          procfileLoop cfg nc rest
            { procs := st.procs ++ [proc]
              index := (st.index + 1) % nc
              basePort := if cfg.SetPorts then (st.basePort + 100) % U64 else st.basePort }

/-- How the Procfile presents itself to `readProcfile`: `os.Stat` says it
does not exist, `os.Stat` fails otherwise, `os.ReadFile` fails, or the
file's content is available. -/
inductive ProcfileSource where
  | missing
  | statErr (msg : String)
  | unreadable (msg : String)
  | content (s : Str)
deriving DecidableEq, Repr

/-- The loader `readProcfile`: stat/read the Procfile, parse it line by line, reject
an empty result. Returns the parsed `procs` slice together with the
updated `Config` (its `BasePort` was advanced by the loop). -/
def readProcfile (cfg : Config) (nc : Nat) (src : ProcfileSource) :
    ParseOutcome (List ProcInfo × Config) :=
  match src with
  | .missing => .err ("procfile does not exist:" ++ cfg.Procfile)
  | .statErr m => .err m
  | .unreadable m => .err m
  | .content s =>
    match procfileLoop cfg nc (splitOnChar '\n' s) ⟨[], 0, cfg.BasePort⟩ with
    | none => .panic
    | some st =>
      if st.procs.length = 0 then .err ("no valid entry")
      else .ok (st.procs, { cfg with BasePort := st.basePort })

/-- Lookup `findProc`: first registry entry with the given name, if any. -/
def findProc (procs : List ProcInfo) (n : Str) : Option ProcInfo :=
  procs.find? (fun p => p.name == n)

/-- Process-instance lifecycle states (spec §3). -/
inductive PState where
  | Starting
  | Running
  | Stopping
  | Stopped
  | Failed
deriving DecidableEq, Repr

/-- Modelled from the spec: `startProcs` lives in a source file not
included here. Per §4.1, `startAll`/`startProcs` spawns each spec in
registry order, transitions it to `Running`, and "fails fast and aborts
the whole batch if any spawn fails (propagated as a fatal startup
error)" with "no instance left `Running`" (§8): on the first failed
spawn the already-started instances are stopped and the remaining ones
are never started. `spawnOk` is the OS spawn oracle; the result pairs
each instance's name with its state after startup, alongside `none`
(success) or `some msg` (the fatal startup error). -/
def startProcsAux (spawnOk : Str → Bool) (started : List (Str × PState)) :
    List ProcInfo → Option String × List (Str × PState)
  | [] => (none, started)
  | p :: rest =>
    if spawnOk p.name then
      startProcsAux spawnOk (started ++ [(p.name, PState.Running)]) rest
    else
      (some ("failed to start: " ++ String.mk p.name),
        started.map (fun x => (x.1, PState.Stopped))
          ++ [(p.name, PState.Failed)]
          ++ rest.map (fun q => (q.name, PState.Starting)))

/-- Modelled from the spec: entry point of the batch startup (see
`startProcsAux`). -/
def startProcs (spawnOk : Str → Bool) (procs : List ProcInfo) :
    Option String × List (Str × PState) :=
  startProcsAux spawnOk [] procs

/-- The name-restriction loop of `start` (`cfg.Args[1:]`): look each name
up with `findProc`, fail on the first unknown one, otherwise collect the
found instances in argument order into the replacement registry. -/
def restrictProcs (procs : List ProcInfo) : List Str → Except String (List ProcInfo)
  | [] => .ok []
  | v :: rest =>
    match findProc procs v with
    | none => .error ("unknown proc: " ++ String.mk v)
    | some p =>
      match restrictProcs procs rest with
      | .error m => .error m
      | .ok tmp => .ok (p :: tmp)

/-- Outcome of the `start` command: a propagated panic, an error together
with the final instance states (empty when `start` aborted before any
instance existed), or success with the final instance states. -/
inductive StartOutcome where
  | panic
  | err (msg : String) (states : List (Str × PState))
  | ok (states : List (Str × PState))
deriving DecidableEq, Repr

/-- The spawn phase of `start`, packaging `startProcs`'s result as the
command's outcome. -/
def runStartProcs (spawnOk : Str → Bool) (procs1 : List ProcInfo) : StartOutcome :=
  match startProcs spawnOk procs1 with
  | (none, sts) => .ok sts
  | (some m, sts) => .err m sts

/-- The command `start`: load the Procfile, optionally restrict the registry to the
names given as extra arguments, then spawn everything via `startProcs`.
(The RPC-server goroutine and dotenv loading have no bearing on the
instance states and are omitted.) -/
def start (spawnOk : Str → Bool) (cfg : Config) (nc : Nat) (src : ProcfileSource) :
    StartOutcome :=
  match readProcfile cfg nc src with
  | .panic => .panic
  | .err m => .err m []
  | .ok (procs0, _) =>
    match
      (if cfg.Args.length > 1 then restrictProcs procs0 cfg.Args.tail
       else .ok procs0 : Except String (List ProcInfo)) with
    | .error m => .err m []
    | .ok procs1 => runStartProcs spawnOk procs1

/-- The exit status of `MainWithConfig` for the `start` command: `os.Exit(1)`
when `start` returned an error, implicit 0 otherwise; a Go panic
bypasses the exit path. -/
def mainExitCode : StartOutcome → Option Nat
  | .panic => none
  | .err _ _ => some 1
  | .ok _ => some 0

/-- The environment variables consulted by the default helpers, with
`os.LookupEnv` semantics (`none` = unset). -/
structure Env where
  rpcPort : Option String
  rpcAddr : Option String
deriving DecidableEq, Repr

/-- Digit-string value for `goAtoi`: `some n` iff the list is a nonempty
run of decimal digits. -/
def digitsVal : Str → Option Nat
  | [] => none
  | [c] => if c.isDigit then some (c.toNat - '0'.toNat) else none
  | c :: rest =>
    if c.isDigit then
      match digitsVal rest with
      | none => none
      | some n => some ((c.toNat - '0'.toNat) * 10 ^ rest.length + n)
    else none

/-- Go `strconv.Atoi` (= `ParseInt(s, 10, 64)` on a 64-bit platform):
optional sign, then at least one decimal digit and nothing else; a value
outside the `int64` range is an `ErrRange` error (`none`). -/
def goAtoi (s : Str) : Option Int :=
  match s with
  | '+' :: rest =>
    match digitsVal rest with
    | none => none
    | some n => if n ≤ 2 ^ 63 - 1 then some (n : Int) else none
  | '-' :: rest =>
    match digitsVal rest with
    | none => none
    | some n => if n ≤ 2 ^ 63 then some (-(n : Int)) else none
  | _ =>
    match digitsVal s with
    | none => none
    | some n => if n ≤ 2 ^ 63 - 1 then some (n : Int) else none

/-- Go's `uint(i)` conversion of an `int`: two's-complement reinterpretation
modulo `2 ^ 64`. -/
def uintOfInt (i : Int) : Nat := (i % (U64 : Int)).toNat

/-- The helper `defaultPort`: `GOREMAN_RPC_PORT` when set, nonempty, and accepted by
`Atoi` (converted through `uint(i)`), otherwise 8555. `os.Getenv` turns
an unset variable into `""`. -/
def defaultPort (env : Env) : Nat :=
  let s := env.rpcPort.getD ("")
  if s ≠ "" then
    match goAtoi s.toList with
    | some i => uintOfInt i
    | none => 8555
  else 8555

/-- The helper `defaultAddr`: `GOREMAN_RPC_ADDR` when set (`os.LookupEnv`),
otherwise `"0.0.0.0"`. -/
def defaultAddr (env : Env) : String :=
  match env.rpcAddr with
  | some s => s
  | none => "0.0.0.0"

/-- The flag values that `fs.Parse(args)` extracts from the argument
list, one optional value per flag registered by
`ParseConfigWithFlagSet`, plus the positional arguments `fs.Args()`.
`none` means the flag does not occur in `args`, in which case the
standard library keeps the default passed at registration; a present
value has already gone through the flag package's value parsing
(`flag.ExitOnError` terminates the process on a malformed value). -/
structure FlagSetInput where
  fFlag : Option String := none
  pFlag : Option Nat := none
  rpcServerFlag : Option Bool := none
  basedirFlag : Option String := none
  bFlag : Option Nat := none
  setPortsFlag : Option Bool := none
  exitOnErrorFlag : Option Bool := none
  exitOnStopFlag : Option Bool := none
  logtimeFlag : Option Bool := none
  positional : List Str := []
deriving DecidableEq, Repr

/-- The parser `ParseConfigWithFlagSet`: register every flag with its default —
note that both `-p` and `-b` default to `defaultPort()` — parse, and
set `Args` to the positional arguments, falling back to the raw
argument list when there are none. -/
def ParseConfigWithFlagSet (env : Env) (fsIn : FlagSetInput) (args : List Str) : Config :=
  { Procfile := fsIn.fFlag.getD ("Procfile")
    RpcPort := fsIn.pFlag.getD (defaultPort env)
    StartRpcServer := fsIn.rpcServerFlag.getD true
    BaseDir := fsIn.basedirFlag.getD ("")
    BasePort := fsIn.bFlag.getD (defaultPort env)
    SetPorts := fsIn.setPortsFlag.getD true
    ExitOnError := fsIn.exitOnErrorFlag.getD false
    ExitOnStop := fsIn.exitOnStopFlag.getD true
    LogTime := fsIn.logtimeFlag.getD true
    Args := if fsIn.positional.length > 0 then fsIn.positional else args }

/-- Specification-side description of the lines of a Procfile that
produce an entry: those containing a `':'` whose key part is nonempty and
does not begin with `'#'`, as (key, value) token pairs in file order. -/
def keptLinesL : List Str → List (Str × Str)
  | [] => []
  | line :: rest =>
    match splitN2 ':' line with
    | none => keptLinesL rest
    | some (t0, t1) =>
      match t0 with
      | [] => keptLinesL rest
      | c :: _ => if c = '#' then keptLinesL rest else (t0, t1) :: keptLinesL rest

/-- The valid-entry token pairs of a Procfile's content, file order. -/
def keptLines (s : Str) : List (Str × Str) :=
  keptLinesL (splitOnChar '\n' s)

/-- A zero-valued `ProcInfo`, used as the out-of-range default for `getD`. -/
def defaultProc : ProcInfo :=
  { name := [], cmdline := [], port := 0, setPort := false, colorIndex := 0, logTime := false }

/-- The registry a load produces (empty when loading does not succeed). -/
def procsOf (cfg : Config) (nc : Nat) (src : ProcfileSource) : List ProcInfo :=
  match readProcfile cfg nc src with
  | .ok (ps, _) => ps
  | _ => []

/-- Whether loading succeeds. -/
def loadOk (cfg : Config) (nc : Nat) (src : ProcfileSource) : Bool :=
  match readProcfile cfg nc src with
  | .ok _ => true
  | _ => false

/-- A `Config` with the schema's declared defaults, base port 5000. -/
def cfg0 : Config :=
  { Args := [], Procfile := "Procfile", StartRpcServer := true, RpcPort := 8555,
    BaseDir := "", BasePort := 5000, ExitOnError := false, ExitOnStop := true,
    SetPorts := true, LogTime := true }

/- ### Helper lemmas on the default helpers -/

theorem defaultPort_unset (env : Env) (h : env.rpcPort = none) : defaultPort env = 8555 := by
  simp [defaultPort, h]

theorem defaultPort_parsed (env : Env) (s : String) (i : Int)
    (hs : env.rpcPort = some s) (hi : goAtoi s.toList = some i) :
    defaultPort env = uintOfInt i := by
  by_cases hempty : s = ""
  · subst hempty
    simp [goAtoi, digitsVal, String.toList] at hi
  · rw [String.toList] at hi
    simp [defaultPort, hs, hempty, hi]

theorem defaultAddr_unset (env : Env) (h : env.rpcAddr = none) : defaultAddr env = "0.0.0.0" := by
  simp [defaultAddr, h]

theorem defaultAddr_set (env : Env) (a : String) (h : env.rpcAddr = some a) :
    defaultAddr env = a := by
  simp [defaultAddr, h]

/- ### Claim theorems: control-protocol and configuration defaults -/

/-- C8: with `GOREMAN_RPC_PORT` and `GOREMAN_RPC_ADDR` unset the defaults
are port 8555 and bind address "0.0.0.0"; `GOREMAN_RPC_PORT` set to a
string that `Atoi` accepts overrides the port (through Go's `uint(i)`
conversion), and `GOREMAN_RPC_ADDR` set to any value overrides the bind
address. -/
theorem rpc_defaults (env : Env) :
    (env.rpcPort = none → defaultPort env = 8555) ∧
    (env.rpcAddr = none → defaultAddr env = "0.0.0.0") ∧
    (∀ s i, env.rpcPort = some s → goAtoi s.toList = some i →
      defaultPort env = uintOfInt i) ∧
    (∀ a, env.rpcAddr = some a → defaultAddr env = a) :=
  ⟨defaultPort_unset env, defaultAddr_unset env,
   fun s i hs hi => defaultPort_parsed env s i hs hi,
   fun a ha => defaultAddr_set env a ha⟩

/-- Witness for C8 at concrete environments. -/
theorem rpc_defaults_witness :
    defaultPort ⟨none, none⟩ = 8555 ∧
    defaultAddr ⟨none, none⟩ = "0.0.0.0" ∧
    defaultPort ⟨some ("9000"), none⟩ = uintOfInt 9000 ∧
    defaultAddr ⟨none, some ("10.0.0.1")⟩ = "10.0.0.1" :=
  ⟨(rpc_defaults ⟨none, none⟩).1 rfl,
   (rpc_defaults ⟨none, none⟩).2.1 rfl,
   (rpc_defaults ⟨some ("9000"), none⟩).2.2.1 ("9000") 9000 rfl (by decide),
   (rpc_defaults ⟨none, some ("10.0.0.1")⟩).2.2.2 ("10.0.0.1") rfl⟩

/-- C10: with no `-b` flag and `GOREMAN_RPC_PORT` unset, the parsed
config's `BasePort` is 8555 (the `-b` flag's default is `defaultPort()`),
not the 5000 declared by the `Config` schema's `default` struct tag; and
setting `GOREMAN_RPC_PORT` moves the base-port default along with it. -/
theorem baseport_default_is_rpc_default (env : Env) (fsIn : FlagSetInput) (args : List Str)
    (hb : fsIn.bFlag = none) :
    (env.rpcPort = none →
      (ParseConfigWithFlagSet env fsIn args).BasePort = 8555 ∧
      configTagDefault ("BasePort") = "5000" ∧
      (ParseConfigWithFlagSet env fsIn args).BasePort ≠ 5000) ∧
    (∀ s i, env.rpcPort = some s → goAtoi s.toList = some i →
      (ParseConfigWithFlagSet env fsIn args).BasePort = uintOfInt i) := by
  constructor
  · intro h
    have h1 : defaultPort env = 8555 := defaultPort_unset env h
    refine ⟨?_, rfl, ?_⟩ <;> simp [ParseConfigWithFlagSet, hb, h1]
  · intro s i hs hi
    have h1 : defaultPort env = uintOfInt i := defaultPort_parsed env s i hs hi
    simp [ParseConfigWithFlagSet, hb, h1]

/-- Witness for C10 at concrete environments and an empty flag set. -/
theorem baseport_default_witness :
    ((ParseConfigWithFlagSet ⟨none, none⟩ {} []).BasePort = 8555 ∧
      configTagDefault ("BasePort") = "5000" ∧
      (ParseConfigWithFlagSet ⟨none, none⟩ {} []).BasePort ≠ 5000) ∧
    (ParseConfigWithFlagSet ⟨some ("6000"), none⟩ {} []).BasePort = uintOfInt 6000 :=
  ⟨(baseport_default_is_rpc_default ⟨none, none⟩ {} [] rfl).1 rfl,
   (baseport_default_is_rpc_default ⟨some ("6000"), none⟩ {} [] rfl).2 ("6000") 6000 rfl
     (by decide)⟩

/-- C9: `readProcfile` is not total — on a content whose line begins with
`':'` the key token is empty and the comment test `tokens[0][0] == '#'`
indexes out of range, a Go runtime panic rather than a returned error. -/
theorem readProcfile_panics_on_leading_colon :
    readProcfile cfg0 6 (.content ((":echo hi".toList))) = .panic := by
  decide

/- ### Helper lemmas on the Procfile loader -/

/-- The updated `Config` a load produces (the input config when loading
does not succeed). -/
def cfgOf (cfg : Config) (nc : Nat) (src : ProcfileSource) : Config :=
  match readProcfile cfg nc src with
  | .ok (_, c) => c
  | _ => cfg

/-- A successful `readProcfile` on file content comes from a completed,
nonempty loop run. -/
theorem readProcfile_ok_loop (cfg : Config) (nc : Nat) (s : Str) (ps : List ProcInfo)
    (c2 : Config) (h : readProcfile cfg nc (.content s) = .ok (ps, c2)) :
    ∃ st, procfileLoop cfg nc (splitOnChar '\n' s) ⟨[], 0, cfg.BasePort⟩ = some st ∧
      st.procs = ps ∧ ps ≠ [] := by
  cases hloop : procfileLoop cfg nc (splitOnChar '\n' s) ⟨[], 0, cfg.BasePort⟩ with
  | none =>
    have hpanic : readProcfile cfg nc (.content s) = .panic := by
      simp [readProcfile, hloop]
    rw [hpanic] at h
    exact absurd h (by simp)
  | some st =>
    by_cases hlen : st.procs.length = 0
    · have herr : readProcfile cfg nc (.content s) = .err ("no valid entry") := by
        simp [readProcfile, hloop, hlen]
      rw [herr] at h
      exact absurd h (by simp)
    · have hok : readProcfile cfg nc (.content s) =
          .ok (st.procs, { cfg with BasePort := st.basePort }) := by
        simp [readProcfile, hloop, hlen]
      rw [hok] at h
      simp only [ParseOutcome.ok.injEq, Prod.mk.injEq] at h
      refine ⟨st, rfl, h.1, ?_⟩
      rw [← h.1]
      intro hnil
      exact hlen (by simp [hnil])

/-- A successful `readProcfile` never yields an empty registry. -/
theorem readProcfile_ok_nonempty (cfg : Config) (nc : Nat) (src : ProcfileSource)
    (ps : List ProcInfo) (c2 : Config)
    (h : readProcfile cfg nc src = .ok (ps, c2)) : ps ≠ [] := by
  cases src with
  | missing => exact absurd h (by simp [readProcfile])
  | statErr m => exact absurd h (by simp [readProcfile])
  | unreadable m => exact absurd h (by simp [readProcfile])
  | content s =>
    obtain ⟨st, -, -, hne⟩ := readProcfile_ok_loop cfg nc s ps c2 h
    exact hne

/-- A failed `readProcfile` makes `start` return that error with no
instance ever created. -/
theorem start_err_of_readProcfile_err (spawnOk : Str → Bool) (cfg : Config) (nc : Nat)
    (src : ProcfileSource) (m : String) (h : readProcfile cfg nc src = .err m) :
    start spawnOk cfg nc src = .err m [] := by
  simp [start, h]

/-- The loop's completed runs append exactly one entry per kept line, in
file order, carrying the trimmed key and command tokens. -/
theorem procfileLoop_namecmd (cfg : Config) (nc : Nat) :
    ∀ (lines : List Str) (st st2 : LoopState),
      procfileLoop cfg nc lines st = some st2 →
      st2.procs.map (fun p => (p.name, p.cmdline)) =
        st.procs.map (fun p => (p.name, p.cmdline)) ++
          (keptLinesL lines).map (fun t => (trimSpace t.1, trimSpace t.2)) := by
  intro lines
  induction lines with
  | nil =>
    intro st st2 h
    simp only [procfileLoop, Option.some.injEq] at h
    subst h
    simp [keptLinesL]
  | cons line rest ih =>
    intro st st2 h
    simp only [procfileLoop] at h
    split at h
    · rename_i heq
      rw [ih st st2 h]
      simp [keptLinesL, heq]
    · rename_i t0 t1 heq
      split at h
      · exact absurd h (by simp)
      · rename_i c cs
        split at h
        · rename_i hc
          rw [ih st st2 h]
          simp [keptLinesL, heq, hc]
        · rename_i hc
          rw [ih _ st2 h]
          simp [keptLinesL, heq, hc, List.append_assoc]

/-- Loop invariant tying each accumulated entry's `colorIndex` and
`port` to its ordinal position: the running `index` is the entry count
mod the palette size, the running base port has advanced by 100 per
entry (mod `2 ^ 64`), and entry `i` carries `i % nc` and
`(basePort0 + 100 * i) % U64`. -/
def loadInv (cfg : Config) (nc : Nat) (basePort0 : Nat) (st : LoopState) : Prop :=
  st.index = st.procs.length % nc ∧
  (cfg.SetPorts = true → basePort0 < U64 →
    st.basePort = (basePort0 + 100 * st.procs.length) % U64) ∧
  ∀ i, i < st.procs.length →
    (st.procs.getD i defaultProc).colorIndex = i % nc ∧
    (cfg.SetPorts = true → basePort0 < U64 →
      (st.procs.getD i defaultProc).port = (basePort0 + 100 * i) % U64)

theorem procfileLoop_inv (cfg : Config) (nc : Nat) (basePort0 : Nat) :
    ∀ (lines : List Str) (st st2 : LoopState), loadInv cfg nc basePort0 st →
      procfileLoop cfg nc lines st = some st2 → loadInv cfg nc basePort0 st2 := by
  intro lines
  induction lines with
  | nil =>
    intro st st2 hinv h
    simp only [procfileLoop, Option.some.injEq] at h
    rwa [← h]
  | cons line rest ih =>
    intro st st2 hinv h
    simp only [procfileLoop] at h
    split at h
    · exact ih st st2 hinv h
    · split at h
      · exact absurd h (by simp)
      · split at h
        · exact ih st st2 hinv h
        · refine ih _ st2 ?_ h
          obtain ⟨hidx, hbase, hgetD⟩ := hinv
          refine ⟨?_, ?_, ?_⟩
          · simp only [List.length_append, List.length_cons, List.length_nil]
            rw [hidx, Nat.mod_add_mod]
          · intro hsp hB
            simp only [hsp, if_true, List.length_append, List.length_cons, List.length_nil]
            rw [hbase hsp hB, Nat.mod_add_mod]
            congr 1
          · intro i hi
            simp only [List.length_append, List.length_cons, List.length_nil] at hi
            by_cases hilt : i < st.procs.length
            · rw [List.getD_append _ _ _ _ hilt]
              exact hgetD i hilt
            · have hieq : i = st.procs.length := by omega
              rw [List.getD_append_right _ _ _ _ (by omega)]
              subst hieq
              simp only [Nat.sub_self, List.getD]
              constructor
              · simpa using hidx
              · intro hsp hB
                simp only [hsp, if_true]
                simpa using hbase hsp hB

/- ### Claim theorems: loading -/

/-- C2: a missing or unreadable Procfile, or one whose parse completes
with no valid entry, makes `readProcfile` fail; `readProcfile` never
returns an empty registry; and a load failure makes `start` return the
error before any process instance exists. -/
theorem readProcfile_rejects_bad_sources (cfg : Config) (nc : Nat) :
    (readProcfile cfg nc .missing = .err ("procfile does not exist:" ++ cfg.Procfile)) ∧
    (∀ m, readProcfile cfg nc (.statErr m) = .err m) ∧
    (∀ m, readProcfile cfg nc (.unreadable m) = .err m) ∧
    (∀ s st, procfileLoop cfg nc (splitOnChar '\n' s) ⟨[], 0, cfg.BasePort⟩ = some st →
      st.procs = [] → readProcfile cfg nc (.content s) = .err ("no valid entry")) ∧
    (∀ src ps c2, readProcfile cfg nc src = .ok (ps, c2) → ps ≠ []) ∧
    (∀ src m spawnOk, readProcfile cfg nc src = .err m →
      start spawnOk cfg nc src = .err m []) := by
  refine ⟨rfl, fun m => rfl, fun m => rfl, ?_, ?_, ?_⟩
  · intro s st hloop hempty
    simp [readProcfile, hloop, hempty]
  · intro src ps c2 h
    exact readProcfile_ok_nonempty cfg nc src ps c2 h
  · intro src m spawnOk h
    exact start_err_of_readProcfile_err spawnOk cfg nc src m h

/-- Witness for C2: a missing Procfile and a content with no valid entry,
at concrete inputs. -/
theorem readProcfile_rejects_bad_sources_witness :
    readProcfile cfg0 6 .missing = .err ("procfile does not exist:Procfile") ∧
    readProcfile cfg0 6 (.content (("# only a comment".toList))) = .err ("no valid entry") ∧
    start (fun _ => true) cfg0 6 (.content (("# only a comment".toList))) =
      .err ("no valid entry") [] :=
  ⟨(readProcfile_rejects_bad_sources cfg0 6).1,
   (readProcfile_rejects_bad_sources cfg0 6).2.2.2.1 (("# only a comment".toList))
     ⟨[], 0, 5000⟩ (by decide) rfl,
   (readProcfile_rejects_bad_sources cfg0 6).2.2.2.2.2
     (.content (("# only a comment".toList))) ("no valid entry") (fun _ => true)
     (by decide)⟩

/-- C3: a successful load's registry has exactly one entry per valid
Procfile line, in file order, carrying that line's trimmed key and
command. -/
theorem registry_preserves_file_order (cfg : Config) (nc : Nat) (s : Str)
    (ps : List ProcInfo) (c2 : Config)
    (h : readProcfile cfg nc (.content s) = .ok (ps, c2)) :
    ps.map (fun p => (p.name, p.cmdline)) =
      (keptLines s).map (fun t => (trimSpace t.1, trimSpace t.2)) := by
  obtain ⟨st, hloop, hps, -⟩ := readProcfile_ok_loop cfg nc s ps c2 h
  have hmap := procfileLoop_namecmd cfg nc (splitOnChar '\n' s) ⟨[], 0, cfg.BasePort⟩ st hloop
  rw [hps] at hmap
  simpa [keptLines] using hmap

/-- Witness for C3 at a concrete three-line Procfile. -/
theorem registry_preserves_file_order_witness :
    (procsOf cfg0 6 (.content (("web: a\n#c: x\nworker: b".toList)))).map
        (fun p => (p.name, p.cmdline)) =
      (keptLines (("web: a\n#c: x\nworker: b".toList))).map
        (fun t => (trimSpace t.1, trimSpace t.2)) :=
  registry_preserves_file_order cfg0 6 (("web: a\n#c: x\nworker: b".toList))
    (procsOf cfg0 6 (.content (("web: a\n#c: x\nworker: b".toList))))
    (cfgOf cfg0 6 (.content (("web: a\n#c: x\nworker: b".toList))))
    (by decide)

/-- The invariant holds at the loop's initial state. -/
theorem loadInv_init (cfg : Config) (nc : Nat) :
    loadInv cfg nc cfg.BasePort ⟨[], 0, cfg.BasePort⟩ := by
  refine ⟨by simp, ?_, ?_⟩
  · intro _ hB
    simp [Nat.mod_eq_of_lt hB]
  · intro i hi
    simp at hi

/-- Position-indexed facts about a successful load: entry `i` has
`colorIndex = i % nc` and, when port assignment is on and the base port
is a `uint` value, `port = (BasePort + 100 * i) % 2 ^ 64`. -/
theorem readProcfile_inv (cfg : Config) (nc : Nat) (s : Str) (ps : List ProcInfo)
    (c2 : Config) (h : readProcfile cfg nc (.content s) = .ok (ps, c2)) :
    ∀ i, i < ps.length →
      (ps.getD i defaultProc).colorIndex = i % nc ∧
      (cfg.SetPorts = true → cfg.BasePort < U64 →
        (ps.getD i defaultProc).port = (cfg.BasePort + 100 * i) % U64) := by
  obtain ⟨st, hloop, hps, -⟩ := readProcfile_ok_loop cfg nc s ps c2 h
  have hinv := procfileLoop_inv cfg nc cfg.BasePort (splitOnChar '\n' s)
    ⟨[], 0, cfg.BasePort⟩ st (loadInv_init cfg nc) hloop
  intro i hi
  rw [← hps] at hi ⊢
  exact hinv.2.2 i hi

/-- A two-entry Procfile used by several concrete instantiations. -/
def srcTwo : ProcfileSource := .content (("a: x\nb: y".toList))

/-- C7: the i-th loaded entry's `colorIndex` is `i` modulo the palette
size (`0 < nc` is Go's precondition for `% len(colors)` not to panic). -/
theorem colorIndex_mod_palette (cfg : Config) (nc : Nat) (s : Str) (ps : List ProcInfo)
    (c2 : Config) (hnc : 0 < nc)
    (h : readProcfile cfg nc (.content s) = .ok (ps, c2)) :
    ∀ i, i < ps.length → (ps.getD i defaultProc).colorIndex = i % nc :=
  fun i hi => (readProcfile_inv cfg nc s ps c2 h i hi).1

/-- Witness for C7 on a concrete two-entry Procfile with a six-color
palette. -/
theorem colorIndex_mod_palette_witness :
    0 < 6 ∧ ((procsOf cfg0 6 srcTwo).getD 1 defaultProc).colorIndex = 1 % 6 :=
  ⟨by decide,
   colorIndex_mod_palette cfg0 6 (("a: x\nb: y".toList)) (procsOf cfg0 6 srcTwo)
     (cfgOf cfg0 6 srcTwo) (by decide) (by decide) 1 (by decide)⟩

/-- C5 (amended): the i-th entry's assigned port is
`(BasePort + 100 * i) mod 2 ^ 64` — Go `uint` arithmetic — and the ports
are strictly increasing provided the arithmetic does not wrap around. -/
theorem port_assignment_mod_u64 (cfg : Config) (nc : Nat) (s : Str) (ps : List ProcInfo)
    (c2 : Config) (hsp : cfg.SetPorts = true) (hB : cfg.BasePort < U64)
    (h : readProcfile cfg nc (.content s) = .ok (ps, c2)) :
    (∀ i, i < ps.length →
      (ps.getD i defaultProc).port = (cfg.BasePort + 100 * i) % U64) ∧
    (cfg.BasePort + 100 * ps.length ≤ U64 →
      ∀ i j, i < j → j < ps.length →
        (ps.getD i defaultProc).port < (ps.getD j defaultProc).port) := by
  have hport : ∀ i, i < ps.length →
      (ps.getD i defaultProc).port = (cfg.BasePort + 100 * i) % U64 :=
    fun i hi => (readProcfile_inv cfg nc s ps c2 h i hi).2 hsp hB
  refine ⟨hport, ?_⟩
  intro hbound i j hij hj
  have hi : i < ps.length := lt_trans hij hj
  rw [hport i hi, hport j hj]
  have h1 : cfg.BasePort + 100 * i < U64 := by omega
  have h2 : cfg.BasePort + 100 * j < U64 := by omega
  rw [Nat.mod_eq_of_lt h1, Nat.mod_eq_of_lt h2]
  omega

/-- Witness for C5's amended statement on a concrete two-entry Procfile
from base port 5000. -/
theorem port_assignment_mod_u64_witness :
    cfg0.SetPorts = true ∧ cfg0.BasePort < U64 ∧
    ((procsOf cfg0 6 srcTwo).getD 1 defaultProc).port = (cfg0.BasePort + 100 * 1) % U64 ∧
    ((procsOf cfg0 6 srcTwo).getD 0 defaultProc).port <
      ((procsOf cfg0 6 srcTwo).getD 1 defaultProc).port :=
  ⟨rfl, by decide,
   (port_assignment_mod_u64 cfg0 6 (("a: x\nb: y".toList)) (procsOf cfg0 6 srcTwo)
       (cfgOf cfg0 6 srcTwo) rfl (by decide) (by decide)).1 1 (by decide),
   (port_assignment_mod_u64 cfg0 6 (("a: x\nb: y".toList)) (procsOf cfg0 6 srcTwo)
       (cfgOf cfg0 6 srcTwo) rfl (by decide) (by decide)).2 (by decide) 0 1 (by decide)
     (by decide)⟩

/-- A config whose base port sits just below the `uint` ceiling. -/
def cfgBig : Config := { cfg0 with BasePort := U64 - 50 }

/-- Counterexample to C5 as stated: with base port `2 ^ 64 - 50` the
second entry's port wraps around to 50, which is smaller than the first
entry's port and different from `BasePort + 100 * 1` — the assigned
ports are not strictly monotonically increasing. -/
theorem port_overflow_counterexample :
    loadOk cfgBig 6 srcTwo = true ∧
    ((procsOf cfgBig 6 srcTwo).getD 1 defaultProc).port <
      ((procsOf cfgBig 6 srcTwo).getD 0 defaultProc).port ∧
    ((procsOf cfgBig 6 srcTwo).getD 1 defaultProc).port ≠ cfgBig.BasePort + 100 * 1 := by
  decide

/-- Every kept line's key token is nonempty and does not begin with
`'#'`. -/
theorem keptLinesL_key_shape :
    ∀ (lines : List Str) (t : Str × Str), t ∈ keptLinesL lines →
      t.1 ≠ [] ∧ t.1.head? ≠ some '#' := by
  intro lines
  induction lines with
  | nil =>
    intro t ht
    simp [keptLinesL] at ht
  | cons line rest ih =>
    intro t ht
    simp only [keptLinesL] at ht
    split at ht
    · exact ih t ht
    · split at ht
      · exact ih t ht
      · split at ht
        · exact ih t ht
        · rename_i hc
          rcases List.mem_cons.mp ht with hhead | htail
          · subst hhead
            refine ⟨by simp, ?_⟩
            simpa using hc
          · exact ih t htail

/-- C6 (amended): the loaded names are, in file order, the
whitespace-trimmed key tokens of the valid lines, each of whose raw keys
is nonempty and does not begin with `'#'`; nothing makes the trimmed
names unique or non-empty. -/
theorem names_are_trimmed_keys (cfg : Config) (nc : Nat) (s : Str) (ps : List ProcInfo)
    (c2 : Config) (h : readProcfile cfg nc (.content s) = .ok (ps, c2)) :
    ps.map (fun p => p.name) = (keptLines s).map (fun t => trimSpace t.1) ∧
    ∀ t ∈ keptLines s, t.1 ≠ [] ∧ t.1.head? ≠ some '#' := by
  constructor
  · obtain ⟨st, hloop, hps, -⟩ := readProcfile_ok_loop cfg nc s ps c2 h
    have hmap := procfileLoop_namecmd cfg nc (splitOnChar '\n' s)
      ⟨[], 0, cfg.BasePort⟩ st hloop
    rw [hps] at hmap
    simpa [keptLines, List.map_map, Function.comp] using
      congrArg (List.map Prod.fst) hmap
  · intro t ht
    exact keptLinesL_key_shape (splitOnChar '\n' s) t (by simpa [keptLines] using ht)

/-- A Procfile whose two keys trim to the same empty name. -/
def srcDup : ProcfileSource := .content ((" : x\n : y".toList))

/-- Counterexample to C6 as stated: the content `" : x\n : y"` loads
successfully into two entries that share the empty string as their name —
names are neither unique nor non-empty. -/
theorem duplicate_empty_names_counterexample :
    loadOk cfg0 6 srcDup = true ∧
    (procsOf cfg0 6 srcDup).map (fun p => p.name) = [[], []] := by
  decide

/-- Witness for C6's amended statement on a concrete Procfile. -/
theorem names_are_trimmed_keys_witness :
    (procsOf cfg0 6 srcTwo).map (fun p => p.name) =
      (keptLines (("a: x\nb: y".toList))).map (fun t => trimSpace t.1) :=
  (names_are_trimmed_keys cfg0 6 (("a: x\nb: y".toList)) (procsOf cfg0 6 srcTwo)
      (cfgOf cfg0 6 srcTwo) (by decide)).1

/- ### Helper lemmas on the startup batch -/

/-- A successful batch leaves every instance `Running` (given the already
started prefix is `Running`) and reports one state per instance. -/
theorem startProcsAux_ok (spawnOk : Str → Bool) :
    ∀ (ps : List ProcInfo) (acc sts : List (Str × PState)),
      startProcsAux spawnOk acc ps = (none, sts) →
      ((∀ x ∈ acc, x.2 = PState.Running) → ∀ x ∈ sts, x.2 = PState.Running) ∧
      sts.length = acc.length + ps.length := by
  intro ps
  induction ps with
  | nil =>
    intro acc sts h
    simp only [startProcsAux, Prod.mk.injEq, true_and] at h
    subst h
    exact ⟨fun ha => ha, by simp⟩
  | cons p rest ih =>
    intro acc sts h
    simp only [startProcsAux] at h
    split at h
    · obtain ⟨h1, h2⟩ := ih (acc ++ [(p.name, PState.Running)]) sts h
      constructor
      · intro hacc x hx
        refine h1 ?_ x hx
        intro y hy
        rcases List.mem_append.mp hy with hy | hy
        · exact hacc y hy
        · simp only [List.mem_singleton] at hy
          simp [hy]
      · simp only [List.length_append, List.length_cons, List.length_nil] at h2 ⊢
        omega
    · exact absurd h (by simp)

/-- A failed batch leaves no instance `Running`: already started
instances are stopped, the failing one is `Failed`, the rest never left
`Starting`. -/
theorem startProcsAux_err (spawnOk : Str → Bool) :
    ∀ (ps : List ProcInfo) (acc : List (Str × PState)) (m : String)
      (sts : List (Str × PState)),
      startProcsAux spawnOk acc ps = (some m, sts) →
      ∀ x ∈ sts, x.2 ≠ PState.Running := by
  intro ps
  induction ps with
  | nil =>
    intro acc m sts h
    exact absurd h (by simp [startProcsAux])
  | cons p rest ih =>
    intro acc m sts h
    simp only [startProcsAux] at h
    split at h
    · exact ih _ m sts h
    · simp only [Prod.mk.injEq] at h
      obtain ⟨-, h2⟩ := h
      subst h2
      intro x hx
      rcases List.mem_append.mp hx with hx | hx
      · rcases List.mem_append.mp hx with hx | hx
        · obtain ⟨y, -, rfl⟩ := List.mem_map.mp hx
          simp
        · simp only [List.mem_singleton] at hx
          simp [hx]
      · obtain ⟨q, -, rfl⟩ := List.mem_map.mp hx
        simp

/-- A spawn batch on a nonempty registry either reports every instance
`Running` or fails with no instance `Running`. -/
theorem runStartProcs_cases (spawnOk : Str → Bool) (procs1 : List ProcInfo)
    (hp1 : procs1 ≠ []) :
    (∃ sts, runStartProcs spawnOk procs1 = .ok sts ∧ sts ≠ [] ∧
      ∀ x ∈ sts, x.2 = PState.Running) ∨
    (∃ m sts, runStartProcs spawnOk procs1 = .err m sts ∧
      ∀ x ∈ sts, x.2 ≠ PState.Running) := by
  rcases hsp : startProcs spawnOk procs1 with ⟨o, sts⟩
  cases o with
  | none =>
    left
    refine ⟨sts, by simp [runStartProcs, hsp], ?_,
      (startProcsAux_ok spawnOk procs1 [] sts hsp).1 (by simp)⟩
    have hl : sts.length = procs1.length := by
      simpa using (startProcsAux_ok spawnOk procs1 [] sts hsp).2
    intro hnil
    apply hp1
    apply List.length_eq_zero.mp
    rw [← hl, hnil, List.length_nil]
  | some m =>
    right
    exact ⟨m, sts, by simp [runStartProcs, hsp],
      startProcsAux_err spawnOk procs1 [] m sts hsp⟩

/-- The name a `findProc` hit carries is the name that was looked up. -/
theorem findProc_some_name (ps : List ProcInfo) (v : Str) (p : ProcInfo)
    (h : findProc ps v = some p) : p.name = v := by
  have := List.find?_some h
  simpa using this

/-- A restriction that finds every name keeps exactly the given names, in
argument order. -/
theorem restrictProcs_ok_names (ps : List ProcInfo) :
    ∀ (names : List Str) (tmp : List ProcInfo),
      restrictProcs ps names = .ok tmp →
      tmp.map (fun p => p.name) = names ∧ tmp.length = names.length := by
  intro names
  induction names with
  | nil =>
    intro tmp h
    simp only [restrictProcs, Except.ok.injEq] at h
    subst h
    simp
  | cons v rest ih =>
    intro tmp h
    simp only [restrictProcs] at h
    split at h
    · exact absurd h (by simp)
    · rename_i p hp
      split at h
      · exact absurd h (by simp)
      · rename_i tmp2 htmp2
        simp only [Except.ok.injEq] at h
        subst h
        obtain ⟨h1, h2⟩ := ih tmp2 htmp2
        exact ⟨by simp [h1, findProc_some_name ps v p hp], by simp [h2]⟩

/-- If some requested name is unknown, the restriction fails on the first
such name with the corresponding unknown-proc error. -/
theorem restrictProcs_err_first_unknown (ps : List ProcInfo) :
    ∀ (names : List Str), (∃ v ∈ names, findProc ps v = none) →
      ∃ v ∈ names, findProc ps v = none ∧
        restrictProcs ps names = .error ("unknown proc: " ++ String.mk v) := by
  intro names
  induction names with
  | nil =>
    intro h
    simp at h
  | cons v rest ih =>
    intro h
    cases hf : findProc ps v with
    | none =>
      exact ⟨v, by simp, hf, by simp [restrictProcs, hf]⟩
    | some p =>
      obtain ⟨w, hw, hfw⟩ := h
      rcases List.mem_cons.mp hw with rfl | hwr
      · rw [hf] at hfw
        exact absurd hfw (by simp)
      · obtain ⟨u, hu, hfu, herr⟩ := ih ⟨w, hwr, hfw⟩
        refine ⟨u, List.mem_cons_of_mem v hu, hfu, ?_⟩
        simp [restrictProcs, hf, herr]

/- ### Claim theorems: startup -/

/-- C1: for every spec source `readProcfile` accepts, `start` either
succeeds with every instance `Running`, or fails as a fatal error with no
instance left `Running` (all-or-nothing startup). -/
theorem startup_all_or_nothing (spawnOk : Str → Bool) (cfg : Config) (nc : Nat)
    (src : ProcfileSource) (ps : List ProcInfo) (c2 : Config)
    (h : readProcfile cfg nc src = .ok (ps, c2)) :
    (∃ sts, start spawnOk cfg nc src = .ok sts ∧ sts ≠ [] ∧
      ∀ x ∈ sts, x.2 = PState.Running) ∨
    (∃ m sts, start spawnOk cfg nc src = .err m sts ∧
      ∀ x ∈ sts, x.2 ≠ PState.Running) := by
  have hne : ps ≠ [] := readProcfile_ok_nonempty cfg nc src ps c2 h
  by_cases hlen : cfg.Args.length > 1
  · cases hres : restrictProcs ps cfg.Args.tail with
    | error m =>
      right
      exact ⟨m, [], by simp [start, h, hlen, hres], by simp⟩
    | ok procs1 =>
      have hstart : start spawnOk cfg nc src = runStartProcs spawnOk procs1 := by
        simp [start, h, hlen, hres]
      have hp1 : procs1 ≠ [] := by
        have hl := (restrictProcs_ok_names ps cfg.Args.tail procs1 hres).2
        intro hnil
        rw [hnil, List.length_nil] at hl
        have htail : cfg.Args.tail.length = cfg.Args.length - 1 := by
          simp [List.length_tail]
        omega
      rw [hstart]
      exact runStartProcs_cases spawnOk procs1 hp1
  · have hstart : start spawnOk cfg nc src = runStartProcs spawnOk ps := by
      simp [start, h, hlen]
    rw [hstart]
    exact runStartProcs_cases spawnOk ps hne

/-- Witness for C1: an all-success spawn oracle on a concrete two-entry
Procfile. -/
theorem startup_all_or_nothing_witness :
    (∃ sts, start (fun _ => true) cfg0 6 srcTwo = .ok sts ∧ sts ≠ [] ∧
      ∀ x ∈ sts, x.2 = PState.Running) ∨
    (∃ m sts, start (fun _ => true) cfg0 6 srcTwo = .err m sts ∧
      ∀ x ∈ sts, x.2 ≠ PState.Running) :=
  startup_all_or_nothing (fun _ => true) cfg0 6 srcTwo (procsOf cfg0 6 srcTwo)
    (cfgOf cfg0 6 srcTwo) (by decide)

/-- C4: with explicit process names on the command line, an unknown name
makes `start` fail with an unknown-proc error before anything spawns and
the process exits nonzero, while all-known names restrict the registry to
exactly the given names before spawning. -/
theorem start_restricts_to_given_names (spawnOk : Str → Bool) (cfg : Config) (nc : Nat)
    (src : ProcfileSource) (ps : List ProcInfo) (c2 : Config) (cmdw : Str)
    (names : List Str)
    (hparse : readProcfile cfg nc src = .ok (ps, c2))
    (hargs : cfg.Args = cmdw :: names) (hne : names ≠ []) :
    ((∃ v ∈ names, findProc ps v = none) →
      ∃ v ∈ names, findProc ps v = none ∧
        start spawnOk cfg nc src = .err ("unknown proc: " ++ String.mk v) [] ∧
        mainExitCode (start spawnOk cfg nc src) = some 1) ∧
    (∀ tmp, restrictProcs ps names = .ok tmp →
      tmp.map (fun p => p.name) = names ∧
      start spawnOk cfg nc src = runStartProcs spawnOk tmp) := by
  have hlen : cfg.Args.length > 1 := by
    rw [hargs, List.length_cons]
    have := List.length_pos.mpr hne
    omega
  have htail : cfg.Args.tail = names := by
    rw [hargs]
    rfl
  constructor
  · intro hunk
    obtain ⟨v, hv, hfv, herr⟩ := restrictProcs_err_first_unknown ps names hunk
    have hstart : start spawnOk cfg nc src =
        .err ("unknown proc: " ++ String.mk v) [] := by
      simp [start, hparse, hlen, htail, herr]
    exact ⟨v, hv, hfv, hstart, by rw [hstart]; rfl⟩
  · intro tmp htmp
    refine ⟨(restrictProcs_ok_names ps names tmp htmp).1, ?_⟩
    simp [start, hparse, hlen, htail, htmp]

/-- A config running `start b` against the two-entry Procfile. -/
def cfgRun : Config := { cfg0 with Args := [("start".toList), ("b".toList)] }

/-- A config running `start zz` where no process is named `zz`. -/
def cfgBadName : Config := { cfg0 with Args := [("start".toList), ("zz".toList)] }

/-- The registry `start b` restricts to: just the `b` entry. -/
def tmpB : List ProcInfo :=
  [{ name := ("b".toList), cmdline := ("y".toList), port := 5100, setPort := true,
     colorIndex := 1, logTime := true }]

/-- Witness for C4: `start zz` fails with an unknown-proc error and exit
status 1, while `start b` restricts the registry to the `b` entry. -/
theorem start_restricts_to_given_names_witness :
    (∃ v ∈ [("zz".toList)], findProc (procsOf cfgBadName 6 srcTwo) v = none ∧
      start (fun _ => true) cfgBadName 6 srcTwo =
        .err ("unknown proc: " ++ String.mk v) [] ∧
      mainExitCode (start (fun _ => true) cfgBadName 6 srcTwo) = some 1) ∧
    (tmpB.map (fun p => p.name) = [("b".toList)] ∧
      start (fun _ => true) cfgRun 6 srcTwo = runStartProcs (fun _ => true) tmpB) :=
  ⟨(start_restricts_to_given_names (fun _ => true) cfgBadName 6 srcTwo
      (procsOf cfgBadName 6 srcTwo) (cfgOf cfgBadName 6 srcTwo) ("start".toList)
      [("zz".toList)] (by decide) rfl (by decide)).1
      ⟨("zz".toList), by decide, by decide⟩,
   (start_restricts_to_given_names (fun _ => true) cfgRun 6 srcTwo
      (procsOf cfgRun 6 srcTwo) (cfgOf cfgRun 6 srcTwo) ("start".toList)
      [("b".toList)] (by decide) rfl (by decide)).2 tmpB rfl⟩

end Procman
